import Mathlib

/-!
Shallow embedding of the `Deploy` class of the webiny-js CLI deployment
orchestrator (source file `src/unnamed/part_001`).  Pure data flow is
translated directly; the remote SDK, the filesystem and the interactive
prompt are passed in as explicit oracles; `process.exit(code)` and the
catch/rethrow structure become explicit result constructors.
-/

namespace Deploy

/-- JavaScript `err.code` values distinguished by the orchestrator. -/
inductive ErrCode
  | noChangesDetected
  | econnrefused
  | other (s : String)
deriving DecidableEq, Repr

/-- A thrown JS error as the orchestrator observes it: its `code` and `message`. -/
structure SdkError where
  code : ErrCode
  message : String
deriving DecidableEq, Repr

/-- A local file record as built before `createDeploy`
(`{ key, hash, abs, type }` in the source). -/
structure FileRecord where
  key : String
  hash : String
  abs : String
  type : String
deriving DecidableEq, Repr

/-- One entry of `deploy.files` in the DeployRecord returned by `createDeploy`. -/
structure DeployFile where
  key : String
  type : String
  required : Bool
deriving DecidableEq, Repr

/-- The deploy record returned by `sdk.createDeploy`. -/
structure DeployRecord where
  id : String
  files : List DeployFile
deriving DecidableEq, Repr

/-- One element of the array returned by `sdk.presignFiles`. -/
structure PresignedFile where
  key : String
  type : String
  presigned : String
deriving DecidableEq, Repr

/-- The response of `sdk.isDeployActive`. -/
structure PollStatus where
  active : Bool
  url : String
deriving DecidableEq, Repr

/-- Observable outcome of one polling run of `waitTillActive`:
the returned value, the number of `isDeployActive` calls made,
and the total milliseconds spent in `sleep`. -/
structure PollTrace where
  result : Option String
  calls : Nat
  sleptMillis : Nat
deriving DecidableEq, Repr

/-- The loop body of `waitTillActive`: at iteration `i` with `fuel`
iterations remaining, first `sleep(5000)`, then call `isDeployActive`
(modelled by the oracle `resp`), returning the url on `active`. -/
def waitTillActiveGo (resp : Nat → PollStatus) (i : Nat) : Nat → PollTrace
  | 0 => { result := none, calls := 0, sleptMillis := 0 }
  | fuel + 1 =>
    let r := resp i
    if r.active then { result := some r.url, calls := 1, sleptMillis := 5000 }
    else
      let t := waitTillActiveGo resp (i + 1) fuel
      { result := t.result, calls := t.calls + 1, sleptMillis := t.sleptMillis + 5000 }

/-- Embedding of `waitTillActive(deploy)`: `for (let i = 0; i < 10; i++) { await sleep(5000);
const { active, url } = await sdk.isDeployActive(deploy.id); if (active) return url; }
return null;` — the responses of `isDeployActive` are the oracle `resp`. -/
def waitTillActive (resp : Nat → PollStatus) : PollTrace :=
  waitTillActiveGo resp 0 10

inductive RunOutcome (α : Type)
  | ok (a : α)
  | exit (code : Nat)
deriving DecidableEq, Repr

/-- Embedding of `checkNetworkError(err)`: exits the process with code 1 when
`err.code === "ECONNREFUSED"`, otherwise does nothing; the exit, if any,
is returned as `some code`. -/
def checkNetworkError (e : SdkError) : Option Nat :=
  if e.code = ErrCode.econnrefused then some 1 else none

/-- The catch block shared by `deployApp` and `deployFunction`:
`checkNetworkError(err); logger.info(err.message);
if (err.code !== "NO_CHANGES_DETECTED") process.exit(1); return null;`. -/
def handleDeployError (e : SdkError) : RunOutcome (Option DeployRecord) :=
  match checkNetworkError e with
  | some c => RunOutcome.exit c
  | none =>
    if e.code ≠ ErrCode.noChangesDetected then RunOutcome.exit 1
    else RunOutcome.ok none

/-- Embedding of `files.find(f => f.key === file.key).abs`: the lookup of the local
FileRecord matching a presigned key.  A miss makes the member access on
`undefined` throw a TypeError (an error whose `code` is not
`NO_CHANGES_DETECTED` and not `ECONNREFUSED`). -/
def lookupAbs (files : List FileRecord) (k : String) : Except SdkError String :=
  match files.find? (fun f => f.key = k) with
  | some fr => Except.ok fr.abs
  | none =>
    Except.error
      { code := ErrCode.other "TypeError",
        message := "Cannot read property abs of undefined" }

/-- One prepared upload: the presigned target together with the content
read from the matching local file. -/
structure UploadItem where
  key : String
  presigned : String
  content : String
deriving DecidableEq, Repr

/-- Embedding of `Promise.all(presignedFiles.map(async file => { const abs =
files.find(f => f.key === file.key).abs; file.content = await fs.readFile(abs);
return file; }))`: every presigned file is paired with the bytes of its
matching local record; any lookup miss rejects the whole batch. -/
def buildUploads (files : List FileRecord) (readFile : String → String) :
    List PresignedFile → Except SdkError (List UploadItem)
  | [] => Except.ok []
  | p :: rest =>
    match lookupAbs files p.key with
    | Except.error e => Except.error e
    | Except.ok abs =>
      (buildUploads files readFile rest).map
        (fun us => { key := p.key, presigned := p.presigned, content := readFile abs } :: us)

/-- Embedding of `uploadFiles(deploy, files)`: filters `deploy.files` to the required
ones, requests presigned targets for exactly that set (the `presign`
oracle), reads each matching local file, and uploads the prepared batch.
The first component is the presign request sent to the SDK; the second is
the batch of uploads performed, or the error rethrown by the catch block. -/
def uploadFiles (presign : List (String × String) → List PresignedFile)
    (readFile : String → String)
    (deploy : DeployRecord) (files : List FileRecord) :
    List (String × String) × Except SdkError (List UploadItem) :=
  let req := (deploy.files.filter (fun f => f.required)).map (fun f => (f.key, f.type))
  (req, buildUploads files readFile (presign req))

/-- Embedding of `deployApp(pkg)` after the digest step, parametrised by the outcome of
`sdk.createDeploy` and by the oracles `uploadFiles` needs.  On success the
deploy record is returned; a thrown error goes through the catch block
(`handleDeployError`). -/
def deployApp (files : List FileRecord)
    (createResult : Except SdkError DeployRecord)
    (presign : List (String × String) → List PresignedFile)
    (readFile : String → String) : RunOutcome (Option DeployRecord) :=
  match createResult with
  | Except.error e => handleDeployError e
  | Except.ok d =>
    match (uploadFiles presign readFile d files).2 with
    | Except.error e => handleDeployError e
    | Except.ok _ => RunOutcome.ok (some d)

/-- The single-element file list built by `deployFunction`:
`[{ key: "function.zip", hash: zipHash, abs: zipFile, type: "application/zip" }]`. -/
def deployFunctionFiles (zipHash : String) (zipFile : String) : List FileRecord :=
  [{ key := "function.zip", hash := zipHash, abs := zipFile, type := "application/zip" }]

/-- Embedding of `deployFunction(pkg)` after the archive step: the whole build directory
has been collapsed into one zip whose hash is `zipHash`; the deploy is
created from the single `function.zip` record and uploaded like an app. -/
def deployFunction (zipHash : String) (zipFile : String)
    (createResult : Except SdkError DeployRecord)
    (presign : List (String × String) → List PresignedFile)
    (readFile : String → String) : RunOutcome (Option DeployRecord) :=
  match createResult with
  | Except.error e => handleDeployError e
  | Except.ok d =>
    match (uploadFiles presign readFile d (deployFunctionFiles zipHash zipFile)).2 with
    | Except.error e => handleDeployError e
    | Except.ok _ => RunOutcome.ok (some d)

/-- A package descriptor as supplied by `listPackages` (the fields the
orchestrator's control flow inspects). -/
structure Pkg where
  name : String
  type : String
deriving DecidableEq, Repr

/-- Embedding of `deployPackage(pkg)` where `pkg` may be `undefined` (single-package
mode passes `packages.find(...)` without checking).  With `pkg` absent,
`ensureBuild` dereferences `pkg.root` and throws; the surrounding
try/catch logs the error and calls `process.exit(1)`.  With `pkg` present,
a build failure also exits 1; otherwise the app or function pipeline runs
(given here as the oracle `deployResult`). -/
def deployPackage (pkg : Option Pkg)
    (buildResult : Pkg → Except SdkError Unit)
    (deployResult : Pkg → RunOutcome (Option DeployRecord)) :
    RunOutcome (Option DeployRecord) :=
  match pkg with
  | none => RunOutcome.exit 1
  | some p =>
    match buildResult p with
    | Except.error _ => RunOutcome.exit 1
    | Except.ok _ => deployResult p

/-- Single-package mode lookup and dispatch:
`const pkg = packages.find(p => p.name === name); await this.deployPackage(pkg)`. -/
def singleDeploy (name : String) (packages : List Pkg)
    (buildResult : Pkg → Except SdkError Unit)
    (deployResult : Pkg → RunOutcome (Option DeployRecord)) :
    RunOutcome (Option DeployRecord) :=
  deployPackage (packages.find? (fun p => p.name = name)) buildResult deployResult

/-- The batch-mode creation loop (`for` over `packages`): each package runs
`deployPackage` (oracle `dp`, keyed by package name); an exit inside it
terminates the process; a `null` deploy (`no changes`) is skipped with
`continue`; a real deploy is added to the `deploys` map. -/
def collectDeploys (dp : String → RunOutcome (Option DeployRecord)) :
    List String → List (String × DeployRecord) → RunOutcome (List (String × DeployRecord))
  | [], acc => RunOutcome.ok acc
  | p :: rest, acc =>
    match dp p with
    | RunOutcome.exit c => RunOutcome.exit c
    | RunOutcome.ok none => collectDeploys dp rest acc
    | RunOutcome.ok (some d) => collectDeploys dp rest (acc ++ [(p, d)])

/-- Final state of a batch run: an abrupt `process.exit(code)` with a
nonzero code, or normal completion with the final URL listing printed
before `process.exit()`. -/
inductive BatchResult
  | exited (code : Nat)
  | done (urls : List (String × String))
deriving DecidableEq, Repr

/-- The batch-mode activation loop: every collected deploy is activated and
polled sequentially (`wait d` is the value `waitTillActive` returned);
a `null` url is an activation timeout and exits 1; otherwise the url is
recorded for the final listing. -/
def activateAll (wait : DeployRecord → Option String) :
    List (String × DeployRecord) → List (String × String) → BatchResult
  | [], acc => BatchResult.done acc
  | (n, d) :: rest, acc =>
    match wait d with
    | none => BatchResult.exited 1
    | some url => activateAll wait rest (acc ++ [(n, url)])

/-- Batch mode of `deploy` (no package name given): collect deploys for all
packages, `process.exit()` (code 0, empty listing) when none were created,
otherwise activate each and print the URL listing. -/
def batchDeploy (pkgs : List String)
    (dp : String → RunOutcome (Option DeployRecord))
    (wait : DeployRecord → Option String) : BatchResult :=
  match collectDeploys dp pkgs [] with
  | RunOutcome.exit c => BatchResult.exited c
  | RunOutcome.ok deploys =>
    if deploys.length = 0 then BatchResult.done []
    else activateAll wait deploys []

/-- The two environment variables the orchestrator reads; a JS variable
that is unset (or set to the empty string) is falsy, modelled as `""`. -/
structure Env where
  WEBINY_ACCESS_TOKEN : String
  WEBINY_SITE_ID : String
deriving DecidableEq, Repr

/-- Embedding of `validateCiRequirements()`: exits 1 when `WEBINY_ACCESS_TOKEN` is falsy,
then exits 1 when `WEBINY_SITE_ID` is falsy; `some code` records the exit. -/
def validateCiRequirements (env : Env) : Option Nat :=
  if env.WEBINY_ACCESS_TOKEN = "" then some 1
  else if env.WEBINY_SITE_ID = "" then some 1
  else none

/-- Outcome of the head of `deploy({name, ...opts})`: either the process
exited during CI validation — before `setupSDK` and hence before any
network call — or control proceeded into the continuation `k`. -/
inductive DeployStart (α : Type)
  | exitedBeforeNetwork (code : Nat)
  | proceeded (a : α)
deriving DecidableEq, Repr

/-- The first statements of `deploy`: `if (opts.ci) this.validateCiRequirements();
await this.setupSDK(); ...` — everything from `setupSDK` on (the first code
that can touch the network) is the continuation `k`. -/
def deployStart {α : Type} (ci : Bool) (env : Env) (k : Unit → α) : DeployStart α :=
  if ci then
    match validateCiRequirements env with
    | some c => DeployStart.exitedBeforeNetwork c
    | none => DeployStart.proceeded (k ())
  else DeployStart.proceeded (k ())

/-- JS truthiness of the strings flowing out of `getAccessToken` /
`getSiteId`: `none` is `null`/`undefined`, and the empty string is falsy. -/
def truthy : Option String → Bool
  | none => false
  | some s => s ≠ ""

/-- Embedding of `getAccessToken()`: the environment variable wins when truthy; otherwise
the global config file is read permissively — `globalConfig` is `none` when
the file is absent or unparsable, `some tok` its `accessToken` field. -/
def getAccessToken (env : Env) (globalConfig : Option (Option String)) : Option String :=
  if env.WEBINY_ACCESS_TOKEN ≠ "" then some env.WEBINY_ACCESS_TOKEN
  else
    match globalConfig with
    | none => none
    | some tok => tok

/-- Embedding of `getSiteId()`: same shape as `getAccessToken` against the per-project
config file. -/
def getSiteId (env : Env) (projectConfig : Option (Option String)) : Option String :=
  if env.WEBINY_SITE_ID ≠ "" then some env.WEBINY_SITE_ID
  else
    match projectConfig with
    | none => none
    | some sid => sid

/-- Lines 48–53 of `deploy`: `this.siteId = this.getSiteId(); if (!this.siteId)
{ const { siteId } = await this.askForSite(); this.siteId = siteId;
this.storeSiteId(siteId); }` — returns the site id used for the run and the
value written to the project config file, when any write happens at all. -/
def resolveSiteId (env : Env) (projectConfig : Option (Option String))
    (promptedSiteId : String) : String × Option String :=
  match getSiteId env projectConfig with
  | some s => if s ≠ "" then (s, none) else (promptedSiteId, some promptedSiteId)
  | none => (promptedSiteId, some promptedSiteId)

/-- Outcome of `setupSDK()`: the process either proceeds into the rest of
`deploy` or exited inside `checkNetworkError`. -/
inductive SetupOutcome
  | proceeded
  | exited (code : Nat)
deriving DecidableEq, Repr

/-- Embedding of `setupSDK()` with a truthy access token on hand, parametrised by what
`sdk.whoami()` does: returns a user (`ok true`), returns null (`ok false`,
leading to an interactive re-prompt) or throws.  The whole body sits in
`try { ... } catch (err) { this.checkNetworkError(err); }`: a thrown error
that is not `ECONNREFUSED` falls off the end of the catch block and the
caller continues. -/
def setupSDK (accessToken : Option String) (whoamiResult : Except SdkError Bool) :
    SetupOutcome :=
  if truthy accessToken then
    match whoamiResult with
    | Except.ok _ => SetupOutcome.proceeded
    | Except.error e =>
      match checkNetworkError e with
      | some c => SetupOutcome.exited c
      | none => SetupOutcome.proceeded
  else SetupOutcome.proceeded

/-- The token `ensureToken()` persists via `storeAccessToken`: `setupSDK`
stores nothing when the existing token passes `whoami`, and stores the
interactively prompted token otherwise. -/
def setupSDKStore (accessToken : Option String) (whoamiOk : Bool)
    (promptedToken : String) : Option String :=
  if truthy accessToken then
    if whoamiOk then none else some promptedToken
  else some promptedToken

lemma waitTillActiveGo_never_active (resp : Nat → PollStatus) :
    ∀ fuel i, (∀ k, k < fuel → (resp (i + k)).active = false) →
      waitTillActiveGo resp i fuel =
        { result := none, calls := fuel, sleptMillis := 5000 * fuel } := by
  intro fuel
  induction fuel with
  | zero => intro i _; simp [waitTillActiveGo]
  | succ n ih =>
    intro i h
    have h0 : (resp i).active = false := by
      have := h 0 (Nat.succ_pos n)
      simpa using this
    have hrest : ∀ k, k < n → (resp (i + 1 + k)).active = false := by
      intro k hk
      have := h (k + 1) (by omega)
      have e : i + (k + 1) = i + 1 + k := by omega
      rw [e] at this
      exact this
    simp [waitTillActiveGo, h0, ih (i + 1) hrest, Nat.mul_succ]

lemma waitTillActiveGo_first_active (resp : Nat → PollStatus) :
    ∀ j fuel i, j < fuel → (resp (i + j)).active = true →
      (∀ k, k < j → (resp (i + k)).active = false) →
      waitTillActiveGo resp i fuel =
        { result := some (resp (i + j)).url, calls := j + 1, sleptMillis := 5000 * (j + 1) } := by
  intro j
  induction j with
  | zero =>
    intro fuel i hlt hact _
    match fuel, hlt with
    | fuel + 1, _ =>
      simp only [waitTillActiveGo]
      simp only [Nat.add_zero] at hact
      simp [hact]
  | succ n ih =>
    intro fuel i hlt hact hbefore
    match fuel, hlt with
    | fuel + 1, hlt =>
      have h0 : (resp i).active = false := by
        have := hbefore 0 (Nat.succ_pos n)
        simpa using this
      have hact1 : (resp (i + 1 + n)).active = true := by
        have e : i + (n + 1) = i + 1 + n := by omega
        rw [e] at hact; exact hact
      have hbefore1 : ∀ k, k < n → (resp (i + 1 + k)).active = false := by
        intro k hk
        have := hbefore (k + 1) (by omega)
        have e : i + (k + 1) = i + 1 + k := by omega
        rw [e] at this; exact this
      have hfuel : n < fuel := by omega
      have e : i + 1 + n = i + (n + 1) := by omega
      simp [waitTillActiveGo, h0, ih fuel (i + 1) hfuel hact1 hbefore1, e, Nat.mul_succ]

lemma waitTillActiveGo_calls_pos (resp : Nat → PollStatus) :
    ∀ fuel i, 0 < fuel → 0 < (waitTillActiveGo resp i fuel).calls := by
  intro fuel i hf
  match fuel, hf with
  | fuel + 1, _ =>
    simp only [waitTillActiveGo]
    by_cases h : (resp i).active <;> simp [h]

lemma waitTillActiveGo_slept (resp : Nat → PollStatus) :
    ∀ fuel i, (waitTillActiveGo resp i fuel).sleptMillis =
      5000 * (waitTillActiveGo resp i fuel).calls := by
  intro fuel
  induction fuel with
  | zero => intro i; simp [waitTillActiveGo]
  | succ n ih =>
    intro i
    simp only [waitTillActiveGo]
    by_cases h : (resp i).active
    · simp [h]
    · simp [h, ih (i + 1), Nat.mul_succ]

/-- Result of a code path that may call `process.exit(code)`:
either a value is produced or the process terminated with `code`. -/

lemma buildUploads_ok_of_found (files : List FileRecord) (readFile : String → String) :
    ∀ l : List PresignedFile, (∀ p ∈ l, ∃ f ∈ files, f.key = p.key) →
      ∃ us, buildUploads files readFile l = Except.ok us ∧
        us.map (fun u => u.key) = l.map (fun p => p.key) ∧
        ∀ u ∈ us, ∃ f ∈ files, f.key = u.key ∧ u.content = readFile f.abs := by
  intro l
  induction l with
  | nil => intro _; exact ⟨[], rfl, rfl, by simp⟩
  | cons p rest ih =>
    intro h
    obtain ⟨f, hf, hfk⟩ := h p (List.mem_cons_self p rest)
    have hfind : ∃ fr, files.find? (fun f => f.key = p.key) = some fr ∧ fr ∈ files ∧
        fr.key = p.key := by
      have : (files.find? (fun f => f.key = p.key)).isSome := by
        rw [List.find?_isSome]
        exact ⟨f, hf, by simp [hfk]⟩
      obtain ⟨fr, hfr⟩ := Option.isSome_iff_exists.mp this
      refine ⟨fr, hfr, List.mem_of_find?_eq_some hfr, ?_⟩
      have := List.find?_some hfr
      simpa using this
    obtain ⟨fr, hfr, hfrmem, hfrkey⟩ := hfind
    obtain ⟨us, hus, husk, husc⟩ := ih (fun q hq => h q (List.mem_cons_of_mem p hq))
    refine ⟨{ key := p.key, presigned := p.presigned, content := readFile fr.abs } :: us, ?_, ?_, ?_⟩
    · simp [buildUploads, lookupAbs, hfr, hus, Except.map]
    · simp [husk]
    · intro u hu
      rcases List.mem_cons.mp hu with h1 | h2
      · exact ⟨fr, hfrmem, by simp [h1, hfrkey]⟩
      · exact husc u h2

lemma buildUploads_error_of_miss (files : List FileRecord) (readFile : String → String) :
    ∀ l : List PresignedFile, (∃ p ∈ l, ∀ f ∈ files, f.key ≠ p.key) →
      ∃ e, buildUploads files readFile l = Except.error e ∧
        e.code = ErrCode.other "TypeError" := by
  intro l
  induction l with
  | nil => rintro ⟨p, hp, _⟩; exact absurd hp (List.not_mem_nil p)
  | cons q rest ih =>
    rintro ⟨p, hp, hmiss⟩
    by_cases hq : files.find? (fun f => f.key = q.key) = none
    · refine ⟨⟨ErrCode.other "TypeError", "Cannot read property abs of undefined"⟩, ?_, rfl⟩
      simp [buildUploads, lookupAbs, hq]
    · obtain ⟨fr, hfr⟩ := Option.ne_none_iff_exists.mp hq
      have hfrmem : fr ∈ files := List.mem_of_find?_eq_some hfr.symm
      have hfrkey : fr.key = q.key := by
        have := List.find?_some hfr.symm
        simpa using this
      have hpq : p ∈ rest := by
        rcases List.mem_cons.mp hp with h1 | h2
        · exact absurd (h1 ▸ hfrkey) (hmiss fr hfrmem)
        · exact h2
      obtain ⟨e, he, hec⟩ := ih ⟨p, hpq, hmiss⟩
      refine ⟨e, ?_, hec⟩
      simp [buildUploads, lookupAbs, hfr.symm, he, Except.map]

lemma handleDeployError_exit_of_other (e : SdkError) (s : String)
    (h : e.code = ErrCode.other s) :
    handleDeployError e = RunOutcome.exit 1 := by
  simp [handleDeployError, checkNetworkError, h]

lemma collectDeploys_skip_not_mem (dp : String → RunOutcome (Option DeployRecord))
    (p : String) (hdp : dp p = RunOutcome.ok none) :
    ∀ pkgs acc ds, p ∉ acc.map Prod.fst →
      collectDeploys dp pkgs acc = RunOutcome.ok ds → p ∉ ds.map Prod.fst := by
  intro pkgs
  induction pkgs with
  | nil =>
    intro acc ds hacc hcol
    simp only [collectDeploys] at hcol
    cases hcol
    exact hacc
  | cons q rest ih =>
    intro acc ds hacc hcol
    simp only [collectDeploys] at hcol
    cases hq : dp q with
    | exit c => rw [hq] at hcol; cases hcol
    | ok od =>
      cases od with
      | none => rw [hq] at hcol; exact ih acc ds hacc hcol
      | some d =>
        rw [hq] at hcol
        have hpq : p ≠ q := by
          intro e
          rw [e, hq] at hdp
          cases hdp
        refine ih (acc ++ [(q, d)]) ds ?_ hcol
        simp [hacc, hpq]

lemma activateAll_names (wait : DeployRecord → Option String) :
    ∀ ds acc urls, activateAll wait ds acc = BatchResult.done urls →
      ∀ n, n ∈ urls.map Prod.fst → n ∈ ds.map Prod.fst ∨ n ∈ acc.map Prod.fst := by
  intro ds
  induction ds with
  | nil =>
    intro acc urls hact n hn
    simp only [activateAll] at hact
    cases hact
    exact Or.inr hn
  | cons nd rest ih =>
    intro acc urls hact n hn
    obtain ⟨m, d⟩ := nd
    simp only [activateAll] at hact
    cases hw : wait d with
    | none => rw [hw] at hact; cases hact
    | some url =>
      rw [hw] at hact
      rcases ih (acc ++ [(m, url)]) urls hact n hn with h1 | h2
      · exact Or.inl (by simp [h1])
      · rcases (by simpa using h2 : n ∈ acc.map Prod.fst ∨ n = m) with h3 | h4
        · exact Or.inr h3
        · exact Or.inl (by simp [h4])

lemma buildUploads_ok_keys (files : List FileRecord) (readFile : String → String) :
    ∀ l us, buildUploads files readFile l = Except.ok us →
      us.map (fun u => u.key) = l.map (fun p => p.key) := by
  intro l
  induction l with
  | nil =>
    intro us h
    simp only [buildUploads] at h
    cases h
    rfl
  | cons p rest ih =>
    intro us h
    simp only [buildUploads] at h
    cases hl : lookupAbs files p.key with
    | error e => rw [hl] at h; cases h
    | ok abs =>
      rw [hl] at h
      cases hb : buildUploads files readFile rest with
      | error e => rw [hb] at h; cases h
      | ok us2 =>
        rw [hb] at h
        cases h
        simp [ih us2 hb]

/-- C2: when `isDeployActive` never reports active, `waitTillActive` makes
exactly 10 polling attempts, each preceded by the fixed 5000 ms sleep
(50000 ms total), and returns the timeout value `null`; when attempt `j`
is the first to report `active == true`, polling stops at that attempt
(`j + 1` calls) and returns that response's url. -/
theorem waitTillActive_poll_policy (resp : Nat → PollStatus) :
    ((∀ i, i < 10 → (resp i).active = false) →
      waitTillActive resp = { result := none, calls := 10, sleptMillis := 50000 }) ∧
    (∀ j, j < 10 → (resp j).active = true →
      (∀ i, i < j → (resp i).active = false) →
      waitTillActive resp =
        { result := some (resp j).url, calls := j + 1, sleptMillis := 5000 * (j + 1) }) := by
  constructor
  · intro h
    have := waitTillActiveGo_never_active resp 10 0 (by intro k hk; simpa using h k hk)
    simpa [waitTillActive] using this
  · intro j hj hact hbefore
    have := waitTillActiveGo_first_active resp j 10 0 hj (by simpa using hact)
      (by intro k hk; simpa using hbefore k hk)
    simpa [waitTillActive] using this

/-- Witness for C2: a service that is never active is polled 10 times and
times out; a service first active on attempt index 2 yields its url after
3 calls. -/
theorem waitTillActive_poll_policy_witness :
    waitTillActive (fun _ => { active := false, url := "" }) =
      { result := none, calls := 10, sleptMillis := 50000 } ∧
    waitTillActive (fun i => { active := decide (i = 2), url := "u" }) =
      { result := some "u", calls := 3, sleptMillis := 15000 } := by
  constructor
  · exact (waitTillActive_poll_policy _).1 (fun i _ => rfl)
  · have h := (waitTillActive_poll_policy
      (fun i => { active := decide (i = 2), url := "u" })).2 2 (by omega)
      (by decide) (by decide)
    simpa using h

/-- C9: every `isDeployActive` poll, the first included, is preceded by a
`sleep(5000)`: the total time slept is 5000 ms per call made, at least one
call is always made, so even an immediately active deploy waits at least
5000 ms before its url is returned. -/
theorem waitTillActive_sleeps_before_every_poll (resp : Nat → PollStatus) :
    (waitTillActive resp).sleptMillis = 5000 * (waitTillActive resp).calls ∧
    1 ≤ (waitTillActive resp).calls ∧
    5000 ≤ (waitTillActive resp).sleptMillis := by
  have h1 := waitTillActiveGo_slept resp 10 0
  have h2 := waitTillActiveGo_calls_pos resp 10 0 (by norm_num)
  simp only [waitTillActive]
  omega

/-- Witness for C9: a deploy active on the very first poll still sleeps
5000 ms before its url comes back. -/
theorem waitTillActive_sleeps_before_every_poll_witness :
    (waitTillActive (fun _ => { active := true, url := "u" })).sleptMillis =
      5000 * (waitTillActive (fun _ => { active := true, url := "u" })).calls ∧
    1 ≤ (waitTillActive (fun _ => { active := true, url := "u" })).calls ∧
    5000 ≤ (waitTillActive (fun _ => { active := true, url := "u" })).sleptMillis :=
  waitTillActive_sleeps_before_every_poll (fun _ => { active := true, url := "u" })

/-- C4: under the `ci` flag, when either required environment variable is
falsy, `deploy` exits with code 1 inside `validateCiRequirements` — before
`setupSDK` runs, so before any network call (the continuation `k`, which
holds everything from `setupSDK` on, is never invoked) — and 1 is a
nonzero exit code. -/
theorem ci_missing_env_exits_before_network {α : Type} (env : Env) (k : Unit → α)
    (h : env.WEBINY_ACCESS_TOKEN = "" ∨ env.WEBINY_SITE_ID = "") :
    deployStart true env k = DeployStart.exitedBeforeNetwork 1 ∧ (1 : Nat) ≠ 0 := by
  refine ⟨?_, by decide⟩
  rcases h with h1 | h1 <;> simp [deployStart, validateCiRequirements, h1]

/-- Witness for C4: access token set but site id unset, run in CI mode. -/
theorem ci_missing_env_exits_before_network_witness :
    deployStart true { WEBINY_ACCESS_TOKEN := "token", WEBINY_SITE_ID := "" }
        (fun _ => (0 : Nat)) = DeployStart.exitedBeforeNetwork 1 :=
  (ci_missing_env_exits_before_network
    { WEBINY_ACCESS_TOKEN := "token", WEBINY_SITE_ID := "" }
    (fun _ => (0 : Nat)) (Or.inr rfl)).1

/-- C5 (code bug evaluation): a `whoami` failure during `setupSDK` whose
code is not `ECONNREFUSED` is caught by the catch block, which only runs
`checkNetworkError` and never rethrows: the run proceeds instead of
terminating, although the propagation policy (as implemented everywhere
else, e.g. `handleDeployError`) would exit 1 on this very error. -/
theorem setupSDK_swallows_non_network_error :
    setupSDK (some "existing-token")
        (Except.error { code := ErrCode.other "EPROTO", message := "whoami failed" }) =
      SetupOutcome.proceeded ∧
    checkNetworkError { code := ErrCode.other "EPROTO", message := "whoami failed" } = none ∧
    handleDeployError { code := ErrCode.other "EPROTO", message := "whoami failed" } =
      RunOutcome.exit 1 := by
  decide

/-- C10: in single-package mode, a name matching no discovered package makes
`packages.find` come back empty; `deployPackage` then fails in its build
phase (the `pkg.root` dereference throws) and the catch exits the process
with code 1, a nonzero exit code. -/
theorem singleDeploy_unknown_name_exits (name : String) (packages : List Pkg)
    (h : ∀ p ∈ packages, p.name ≠ name)
    (buildResult : Pkg → Except SdkError Unit)
    (deployResult : Pkg → RunOutcome (Option DeployRecord)) :
    singleDeploy name packages buildResult deployResult = RunOutcome.exit 1 ∧
    (1 : Nat) ≠ 0 := by
  refine ⟨?_, by decide⟩
  have hf : packages.find? (fun p => p.name = name) = none := by
    rw [List.find?_eq_none]
    intro p hp
    simp [h p hp]
  simp [singleDeploy, deployPackage, hf]

/-- Witness for C10: the name `missing` matches neither discovered package. -/
theorem singleDeploy_unknown_name_exits_witness :
    singleDeploy "missing" [{ name := "web-app", type := "app" }]
        (fun _ => Except.ok ()) (fun _ => RunOutcome.ok none) = RunOutcome.exit 1 :=
  (singleDeploy_unknown_name_exits "missing" [{ name := "web-app", type := "app" }]
    (by decide) (fun _ => Except.ok ()) (fun _ => RunOutcome.ok none)).1

/-- C1: a `createDeploy` failure with the `NO_CHANGES_DETECTED` code makes
`deployApp` return `null` instead of exiting; in batch mode such a package
is skipped by `continue` (the loop over the remaining packages is
unchanged), a run consisting only of such packages ends with a plain
`process.exit()` and an empty URL listing, and in any batch run that
completes normally the skipped package is absent from the final URL
listing. -/
theorem noChanges_skipped_in_batch
    (err : SdkError) (herr : err.code = ErrCode.noChangesDetected)
    (files : List FileRecord)
    (presign : List (String × String) → List PresignedFile)
    (readFile : String → String)
    (dp : String → RunOutcome (Option DeployRecord)) (p : String)
    (hdp : dp p = RunOutcome.ok none) :
    deployApp files (Except.error err) presign readFile = RunOutcome.ok none ∧
    (∀ rest acc, collectDeploys dp (p :: rest) acc = collectDeploys dp rest acc) ∧
    (∀ wait, batchDeploy [p] dp wait = BatchResult.done []) ∧
    (∀ pkgs wait urls, batchDeploy pkgs dp wait = BatchResult.done urls →
      p ∉ urls.map Prod.fst) := by
  refine ⟨?_, ?_, ?_, ?_⟩
  · simp [deployApp, handleDeployError, checkNetworkError, herr]
  · intro rest acc
    simp [collectDeploys, hdp]
  · intro wait
    simp [batchDeploy, collectDeploys, hdp]
  · intro pkgs wait urls hbatch hmem
    unfold batchDeploy at hbatch
    cases hcol : collectDeploys dp pkgs [] with
    | exit c => rw [hcol] at hbatch; cases hbatch
    | ok ds =>
      rw [hcol] at hbatch
      dsimp only at hbatch
      by_cases hlen : ds.length = 0
      · rw [if_pos hlen] at hbatch
        cases hbatch
        simp at hmem
      · rw [if_neg hlen] at hbatch
        have hds := collectDeploys_skip_not_mem dp p hdp pkgs [] ds (by simp) hcol
        rcases activateAll_names wait ds [] urls hbatch p hmem with h1 | h2
        · exact hds h1
        · simp at h2

/-- Witness for C1: package `unchanged-app` hits the no-changes error, is
skipped, and a batch consisting of it alone finishes with an empty URL
listing and no failure exit. -/
theorem noChanges_skipped_in_batch_witness :
    deployApp [] (Except.error { code := ErrCode.noChangesDetected, message := "no changes" })
        (fun _ => []) (fun _ => "") = RunOutcome.ok none ∧
    batchDeploy ["unchanged-app"] (fun _ => RunOutcome.ok none) (fun _ => none) =
      BatchResult.done [] := by
  have h := noChanges_skipped_in_batch
    { code := ErrCode.noChangesDetected, message := "no changes" } rfl []
    (fun _ => []) (fun _ => "") (fun _ => RunOutcome.ok none) "unchanged-app" rfl
  exact ⟨h.1, h.2.2.1 (fun _ => none)⟩

/-- C3: when every presigned key has a matching local FileRecord, the whole
batch of uploads is prepared and each upload's payload is exactly the
bytes read from the matching record's path; when some presigned key has no
matching FileRecord, the lookup dereference fails with a TypeError, no
upload batch is produced at all, and `deployApp` turns the rethrown error
into `process.exit(1)`. -/
theorem uploadFiles_integrity
    (presign : List (String × String) → List PresignedFile)
    (readFile : String → String)
    (d : DeployRecord) (files : List FileRecord) :
    ((∀ pf ∈ presign ((d.files.filter (fun f => f.required)).map (fun f => (f.key, f.type))),
        ∃ f ∈ files, f.key = pf.key) →
      ∃ us, (uploadFiles presign readFile d files).2 = Except.ok us ∧
        ∀ u ∈ us, ∃ f ∈ files, f.key = u.key ∧ u.content = readFile f.abs) ∧
    ((∃ pf ∈ presign ((d.files.filter (fun f => f.required)).map (fun f => (f.key, f.type))),
        ∀ f ∈ files, f.key ≠ pf.key) →
      (∃ e, (uploadFiles presign readFile d files).2 = Except.error e ∧
        e.code = ErrCode.other "TypeError") ∧
      deployApp files (Except.ok d) presign readFile = RunOutcome.exit 1) := by
  constructor
  · intro h
    obtain ⟨us, hus, _, husc⟩ := buildUploads_ok_of_found files readFile _ h
    exact ⟨us, by simpa [uploadFiles] using hus, husc⟩
  · intro h
    obtain ⟨e, he, hec⟩ := buildUploads_error_of_miss files readFile _ h
    have h2 : (uploadFiles presign readFile d files).2 = Except.error e := by
      simpa [uploadFiles] using he
    refine ⟨⟨e, h2, hec⟩, ?_⟩
    simp [deployApp, h2, handleDeployError, checkNetworkError, hec]

/-- Witness for C3: with a matching record the single required file is
uploaded with its real content; with no matching record the upload phase
errors and the package run exits 1. -/
theorem uploadFiles_integrity_witness :
    (∃ us, (uploadFiles (fun req => req.map (fun kt => { key := kt.1, type := kt.2, presigned := "target" }))
        (fun _ => "content")
        { id := "d1", files := [{ key := "a.txt", type := "text/plain", required := true }] }
        [{ key := "a.txt", hash := "h1", abs := "/abs/a", type := "text/plain" }]).2 =
          Except.ok us ∧
      ∀ u ∈ us, ∃ f ∈ [({ key := "a.txt", hash := "h1", abs := "/abs/a", type := "text/plain" } : FileRecord)],
        f.key = u.key ∧ u.content = (fun _ => "content") f.abs) ∧
    deployApp []
      (Except.ok { id := "d1", files := [{ key := "a.txt", type := "text/plain", required := true }] })
      (fun req => req.map (fun kt => { key := kt.1, type := kt.2, presigned := "target" }))
      (fun _ => "content") = RunOutcome.exit 1 := by
  constructor
  · exact (uploadFiles_integrity
      (fun req => req.map (fun kt => { key := kt.1, type := kt.2, presigned := "target" }))
      (fun _ => "content")
      { id := "d1", files := [{ key := "a.txt", type := "text/plain", required := true }] }
      [{ key := "a.txt", hash := "h1", abs := "/abs/a", type := "text/plain" }]).1 (by decide)
  · exact ((uploadFiles_integrity
      (fun req => req.map (fun kt => { key := kt.1, type := kt.2, presigned := "target" }))
      (fun _ => "content")
      { id := "d1", files := [{ key := "a.txt", type := "text/plain", required := true }] }
      []).2 (by decide)).2

/-- C6: a nonempty environment value beats any stored config value —
`getAccessToken` and `getSiteId` return the environment value whatever the
config files hold; the site-id resolution step then performs no
`storeSiteId` write; `setupSDK` performs no `storeAccessToken` write when
the token passes `whoami`; and any `storeAccessToken` write that ever
happens persists the interactively prompted token, never the
environment-supplied one. -/
theorem env_values_override_and_are_not_persisted (env : Env)
    (ht : env.WEBINY_ACCESS_TOKEN ≠ "") (hs : env.WEBINY_SITE_ID ≠ "") :
    (∀ globalConfig, getAccessToken env globalConfig = some env.WEBINY_ACCESS_TOKEN) ∧
    (∀ projectConfig, getSiteId env projectConfig = some env.WEBINY_SITE_ID) ∧
    (∀ projectConfig promptedSiteId,
      resolveSiteId env projectConfig promptedSiteId = (env.WEBINY_SITE_ID, none)) ∧
    (∀ globalConfig promptedToken,
      setupSDKStore (getAccessToken env globalConfig) true promptedToken = none) ∧
    (∀ tok whoamiOk promptedToken,
      setupSDKStore tok whoamiOk promptedToken = none ∨
      setupSDKStore tok whoamiOk promptedToken = some promptedToken) := by
  refine ⟨?_, ?_, ?_, ?_, ?_⟩
  · intro g
    simp [getAccessToken, ht]
  · intro pc
    simp [getSiteId, hs]
  · intro pc ps
    simp [resolveSiteId, getSiteId, hs]
  · intro g pt
    simp [setupSDKStore, getAccessToken, ht, truthy]
  · intro tok w pt
    unfold setupSDKStore
    split_ifs <;> simp

/-- Witness for C6: both environment variables set to nonempty values. -/
theorem env_values_override_and_are_not_persisted_witness :
    getAccessToken { WEBINY_ACCESS_TOKEN := "env-token", WEBINY_SITE_ID := "site-1" }
        (some (some "stored-token")) = some "env-token" ∧
    getSiteId { WEBINY_ACCESS_TOKEN := "env-token", WEBINY_SITE_ID := "site-1" }
        (some (some "stored-site")) = some "site-1" ∧
    resolveSiteId { WEBINY_ACCESS_TOKEN := "env-token", WEBINY_SITE_ID := "site-1" }
        (some (some "stored-site")) "prompted-site" = ("site-1", none) ∧
    setupSDKStore (getAccessToken
        { WEBINY_ACCESS_TOKEN := "env-token", WEBINY_SITE_ID := "site-1" }
        (some (some "stored-token"))) true "prompted-token" = none := by
  have h := env_values_override_and_are_not_persisted
    { WEBINY_ACCESS_TOKEN := "env-token", WEBINY_SITE_ID := "site-1" }
    (by decide) (by decide)
  exact ⟨h.1 (some (some "stored-token")), h.2.1 (some (some "stored-site")),
    h.2.2.1 (some (some "stored-site")) "prompted-site",
    h.2.2.2.1 (some (some "stored-token")) "prompted-token"⟩

/-- C7: `deployFunction` submits exactly one FileRecord to `createDeploy` —
key `function.zip`, content type `application/zip`, hash the digest of the
finalized archive — independent of the build directory's contents; and
when the deploy record's manifest is drawn from that submission and the
service presigns at most one target per requested file, at most one upload
is performed. -/
theorem deployFunction_single_file (zipHash : String) (zipFile : String) :
    deployFunctionFiles zipHash zipFile =
      [{ key := "function.zip", hash := zipHash, abs := zipFile, type := "application/zip" }] ∧
    (deployFunctionFiles zipHash zipFile).length = 1 ∧
    (∀ (d : DeployRecord)
        (presign : List (String × String) → List PresignedFile)
        (readFile : String → String),
      List.Sublist (d.files.map (fun f => f.key)) ["function.zip"] →
      (∀ req, (presign req).length ≤ req.length) →
      ∀ us, (uploadFiles presign readFile d (deployFunctionFiles zipHash zipFile)).2 =
          Except.ok us →
        us.length ≤ 1) := by
  refine ⟨rfl, rfl, ?_⟩
  intro d presign readFile hsub hpres us hus
  have hd1 : d.files.length ≤ 1 := by
    have := hsub.length_le
    simpa using this
  have hreq : ((d.files.filter (fun f => f.required)).map (fun f => (f.key, f.type))).length ≤ 1 := by
    have hfilter : (d.files.filter (fun f => f.required)).length ≤ d.files.length :=
      (List.filter_sublist d.files).length_le
    simpa using le_trans hfilter hd1
  have hkeys := buildUploads_ok_keys (deployFunctionFiles zipHash zipFile) readFile
    (presign ((d.files.filter (fun f => f.required)).map (fun f => (f.key, f.type)))) us
    (by simpa [uploadFiles] using hus)
  have hlen : us.length =
      (presign ((d.files.filter (fun f => f.required)).map (fun f => (f.key, f.type)))).length := by
    have := congrArg List.length hkeys
    simpa using this
  calc us.length = _ := hlen
    _ ≤ _ := hpres _
    _ ≤ 1 := hreq

/-- Witness for C7: archive digest `c3`; the service marks the single
`function.zip` required and presigns one target per request; exactly one
upload is prepared. -/
theorem deployFunction_single_file_witness :
    deployFunctionFiles "c3" "/tmp/function.zip" =
      [{ key := "function.zip", hash := "c3", abs := "/tmp/function.zip",
         type := "application/zip" }] ∧
    ([({ key := "function.zip", presigned := "t", content := "z" } : UploadItem)]).length ≤ 1 := by
  have h := deployFunction_single_file "c3" "/tmp/function.zip"
  refine ⟨h.1, ?_⟩
  exact h.2.2
    { id := "d", files := [{ key := "function.zip", type := "application/zip", required := true }] }
    (fun req => req.map (fun kt => { key := kt.1, type := kt.2, presigned := "t" }))
    (fun _ => "z")
    (List.Sublist.refl _)
    (fun req => by simp)
    [{ key := "function.zip", presigned := "t", content := "z" }]
    (by rfl)

/-- C8: the presign request `uploadFiles` sends is exactly the required
subset of `deploy.files`, each entry carrying that file's key and type;
and whenever the presign response stays within the requested keys, every
performed upload is of a file marked required — unrequired files are never
presigned or uploaded. -/
theorem uploadFiles_presigns_exactly_required
    (presign : List (String × String) → List PresignedFile)
    (readFile : String → String)
    (d : DeployRecord) (files : List FileRecord) :
    (∀ k t, (k, t) ∈ (uploadFiles presign readFile d files).1 ↔
      ∃ df ∈ d.files, df.required = true ∧ df.key = k ∧ df.type = t) ∧
    ((∀ pf ∈ presign (uploadFiles presign readFile d files).1,
        pf.key ∈ ((uploadFiles presign readFile d files).1).map Prod.fst) →
      ∀ us, (uploadFiles presign readFile d files).2 = Except.ok us →
        ∀ u ∈ us, ∃ df ∈ d.files, df.required = true ∧ df.key = u.key) := by
  have hfst : (uploadFiles presign readFile d files).1 =
      (d.files.filter (fun f => f.required)).map (fun f => (f.key, f.type)) := rfl
  constructor
  · intro k t
    rw [hfst]
    simp only [List.mem_map, List.mem_filter]
    constructor
    · rintro ⟨df, ⟨hmem, hreq⟩, heq⟩
      refine ⟨df, hmem, by simpa using hreq, ?_, ?_⟩
      · exact congrArg Prod.fst heq
      · exact congrArg Prod.snd heq
    · rintro ⟨df, hmem, hreq, hk, ht⟩
      exact ⟨df, ⟨hmem, by simpa using hreq⟩, by simp [hk, ht]⟩
  · intro hp us hus u hu
    have hkeys := buildUploads_ok_keys files readFile
      (presign (uploadFiles presign readFile d files).1) us
      (by simpa [uploadFiles] using hus)
    have huk : u.key ∈ (presign (uploadFiles presign readFile d files).1).map
        (fun p => p.key) := by
      rw [← hkeys]
      exact List.mem_map_of_mem (fun u => u.key) hu
    obtain ⟨pf, hpf, hpfk⟩ := List.mem_map.mp huk
    have hreqmem := hp pf hpf
    rw [hfst] at hreqmem
    simp only [List.map_map, List.mem_map, List.mem_filter, Function.comp] at hreqmem
    obtain ⟨df, ⟨hmem, hreq⟩, hk⟩ := hreqmem
    exact ⟨df, hmem, by simpa using hreq, by rw [hk, hpfk]⟩

/-- Witness for C8: one required and one unrequired file; only the required
key is requested and uploaded. -/
theorem uploadFiles_presigns_exactly_required_witness :
    (("new.js", "text/javascript") ∈
      (uploadFiles (fun req => req.map (fun kt => { key := kt.1, type := kt.2, presigned := "t" }))
        (fun _ => "bytes")
        { id := "d2",
          files := [{ key := "new.js", type := "text/javascript", required := true },
                    { key := "old.js", type := "text/javascript", required := false }] }
        [{ key := "new.js", hash := "b2", abs := "/abs/new", type := "text/javascript" }]).1 ↔
      ∃ df ∈ [({ key := "new.js", type := "text/javascript", required := true } : DeployFile),
              { key := "old.js", type := "text/javascript", required := false }],
        df.required = true ∧ df.key = "new.js" ∧ df.type = "text/javascript") ∧
    ∀ u ∈ [({ key := "new.js", presigned := "t", content := "bytes" } : UploadItem)],
      ∃ df ∈ [({ key := "new.js", type := "text/javascript", required := true } : DeployFile),
              { key := "old.js", type := "text/javascript", required := false }],
        df.required = true ∧ df.key = u.key := by
  have h := uploadFiles_presigns_exactly_required
    (fun req => req.map (fun kt => { key := kt.1, type := kt.2, presigned := "t" }))
    (fun _ => "bytes")
    { id := "d2",
      files := [{ key := "new.js", type := "text/javascript", required := true },
                { key := "old.js", type := "text/javascript", required := false }] }
    [{ key := "new.js", hash := "b2", abs := "/abs/new", type := "text/javascript" }]
  exact ⟨h.1 "new.js" "text/javascript",
    h.2 (by decide) [{ key := "new.js", presigned := "t", content := "bytes" }] rfl⟩

end Deploy
